import Mathlib

/-!
Verification development for the explorastro-API user service fragment:
the Express user router (src/app/routers/user.js) and the date utility
(src/app/utils/date.js), embedded shallowly.
-/

/-! ## Router embedding (src/app/routers/user.js) -/

/-- Rate-limit middlewares referenced by the router: the four members of the
external rateLimit module used in src/app/routers/user.js. -/
inductive RLOp
  | updateProfile
  | updatePassword
  | updateUsername
  | updateAvatar
deriving DecidableEq

/-- Terminal controller handlers referenced by the router
(userController, searchController, followController members). -/
inductive Ctrl
  | getInformations
  | searchUserByName
  | update
  | updatePassword
  | updateUsername
  | updateAvatar
  | deleteUser
  | follow
  | unfollow
deriving DecidableEq

/-- One entry of an Express route handler stack: a rate-limit middleware,
one of the two userMiddleware checks, or a terminal controller. -/
inductive Step
  | rateLimit (op : RLOp)
  | checkPermissions
  | checkIfExists
  | controller (c : Ctrl)
deriving DecidableEq

/-- HTTP methods used by the router. -/
inductive Method
  | get
  | post
  | patch
  | put
  | delete
deriving DecidableEq

/-- One segment of an Express path pattern: a literal segment, or a named
parameter constrained by the custom regexp (\d+), which matches a segment
if and only if the whole segment is a non-empty run of decimal digits. -/
inductive PatSeg
  | lit (s : String)
  | num (name : String)
deriving DecidableEq

/-- A registered route: HTTP method, path pattern, and the ordered handler
stack (middlewares followed by the terminal controller) exactly as the
arguments appear in the router registration call. -/
structure Route where
  method : Method
  pattern : List PatSeg
  stack : List Step
deriving DecidableEq

/-- ASCII lowercasing, as the case-insensitive JS regex flag i compares
ASCII letters. -/
def lowerChar (c : Char) : Char :=
  if 65 ≤ c.toNat ∧ c.toNat ≤ 90 then Char.ofNat (c.toNat + 32) else c

/-- Case-insensitive normal form of a path segment. -/
def lowerStr (s : String) : String := ⟨s.data.map lowerChar⟩

/-- The (\d+) segment constraint: a non-empty run of decimal digits
(JS \d is [0-9]). -/
def isNumericSeg (t : String) : Bool :=
  !t.data.isEmpty && t.data.all Char.isDigit

/-- Segment matching. A (\d+)-constrained parameter accepts exactly the
non-empty all-digit segments; a literal segment matches case-insensitively,
Express routers being created with the default caseSensitive:false. -/
def matchSeg : PatSeg → String → Bool
  | .lit s, t => lowerStr s == lowerStr t
  | .num _, t => isNumericSeg t

/-- A pattern matches a path when they have the same number of segments and
each segment matches positionally. -/
def matchPattern : List PatSeg → List String → Bool
  | [], [] => true
  | p :: ps, s :: ss => matchSeg p s && matchPattern ps ss
  | _, _ => false

/-- A route matches a request when the method is the route method and the
path matches the pattern. -/
def matchRoute (m : Method) (path : List String) (r : Route) : Bool :=
  decide (m = r.method) && matchPattern r.pattern path

/-- GET /:id(\d+) — userMiddleware.checkIfExists, userController.getInformations
(user.js lines 17-21). -/
def getUserRoute : Route :=
  { method := .get
    pattern := [.num "id"]
    stack := [.checkIfExists, .controller .getInformations] }

/-- GET /search — searchController.searchUserByName, no middleware
(user.js line 32). -/
def searchRoute : Route :=
  { method := .get
    pattern := [.lit "search"]
    stack := [.controller .searchUserByName] }

/-- PATCH /:id(\d+)/update — rateLimit.updateProfile, checkPermissions,
checkIfExists, userController.update (user.js lines 55-61). -/
def updateProfileRoute : Route :=
  { method := .patch
    pattern := [.num "id", .lit "update"]
    stack := [.rateLimit .updateProfile, .checkPermissions, .checkIfExists,
              .controller .update] }

/-- PATCH /:id(\d+)/update/password — rateLimit.updatePassword, checkPermissions,
checkIfExists, userController.updatePassword (user.js lines 74-80). -/
def updatePasswordRoute : Route :=
  { method := .patch
    pattern := [.num "id", .lit "update", .lit "password"]
    stack := [.rateLimit .updatePassword, .checkPermissions, .checkIfExists,
              .controller .updatePassword] }

/-- PATCH /:id(\d+)/update/username — rateLimit.updateUsername, checkPermissions,
checkIfExists, userController.updateUsername (user.js lines 93-99). -/
def updateUsernameRoute : Route :=
  { method := .patch
    pattern := [.num "id", .lit "update", .lit "username"]
    stack := [.rateLimit .updateUsername, .checkPermissions, .checkIfExists,
              .controller .updateUsername] }

/-- PUT /:id(\d+)/update/avatar — rateLimit.updateAvatar, checkPermissions,
checkIfExists, userController.updateAvatar (user.js lines 111-117). -/
def updateAvatarRoute : Route :=
  { method := .put
    pattern := [.num "id", .lit "update", .lit "avatar"]
    stack := [.rateLimit .updateAvatar, .checkPermissions, .checkIfExists,
              .controller .updateAvatar] }

/-- DELETE /:id(\d+)/delete — checkPermissions, checkIfExists,
userController.delete (user.js lines 129-134). -/
def deleteUserRoute : Route :=
  { method := .delete
    pattern := [.num "id", .lit "delete"]
    stack := [.checkPermissions, .checkIfExists, .controller .deleteUser] }

/-- POST /:id(\d+)/follow/:toFollowId(\d+) — checkPermissions, checkIfExists,
followController.follow (user.js lines 145-150). -/
def followRoute : Route :=
  { method := .post
    pattern := [.num "id", .lit "follow", .num "toFollowId"]
    stack := [.checkPermissions, .checkIfExists, .controller .follow] }

/-- DELETE /:id(\d+)/unfollow/:toUnfollowId(\d+) — checkPermissions, checkIfExists,
followController.unfollow (user.js lines 161-166). -/
def unfollowRoute : Route :=
  { method := .delete
    pattern := [.num "id", .lit "unfollow", .num "toUnfollowId"]
    stack := [.checkPermissions, .checkIfExists, .controller .unfollow] }

/-- The user router: the nine routes in registration order (user.js lines 7-166). -/
def userRouter : List Route :=
  [getUserRoute, searchRoute, updateProfileRoute, updatePasswordRoute,
   updateUsernameRoute, updateAvatarRoute, deleteUserRoute, followRoute,
   unfollowRoute]

/-- Express dispatch: the first registered route whose method and pattern match
handles the request; if none matches, the request falls through to the 404
default (modelled as none). -/
def dispatch (m : Method) (path : List String) : Option Route :=
  userRouter.find? (matchRoute m path)

/-- A JSON response: HTTP status and body. -/
structure Response where
  status : Nat
  body : String
deriving DecidableEq

/-- What one stack entry does on a given request: call next() and let the
chain continue, or send a response and end the request. -/
inductive Behavior
  | next
  | respond (r : Response)
deriving DecidableEq

/-- Express chain execution for one matched route: entries run in stack order;
an entry that responds ends the request (nothing after it runs), an entry
that calls next() passes control to the next entry. Returns the list of
entries that executed, in order, and the response sent (none if the stack
ran out without a response). -/
def runChain (behave : Step → Behavior) : List Step → List Step × Option Response
  | [] => ([], none)
  | s :: rest =>
    match behave s with
    | .respond r => ([s], some r)
    | .next =>
      let t := runChain behave rest
      (s :: t.1, t.2)

/-- True when the stack entry is one of the rateLimit middlewares. -/
def isRateLimitStep : Step → Bool
  | .rateLimit _ => true
  | _ => false

/-- A request behavior on which every middleware and controller calls next():
used as a concrete sample behavior. -/
def allNext : Step → Behavior := fun _ => .next

/-- A request behavior on which the permission check rejects with 403 and
every other entry calls next(): a sample request by a caller who lacks
permission. -/
def rejectPermissions : Step → Behavior
  | .checkPermissions => .respond ⟨403, "Forbidden"⟩
  | _ => .next

/-! ## Date utility embedding (src/app/utils/date.js) -/

/-- A calendar instant as the dayjs library exposes it to formatting: year,
month index (0-11), day of month, day of week (0 = Sunday), hour (0-23),
minute (0-59). -/
structure DateTime where
  year : Nat
  month : Fin 12
  day : Nat
  weekday : Fin 7
  hour : Fin 24
  minute : Fin 60

/-- The decimal digit character for n < 10. -/
def digitChar (n : Nat) : Char := Char.ofNat (48 + n)

/-- Decimal digit list of a natural number, most significant first
(empty for 0). Models the JS number-to-string conversion dayjs relies on. -/
def decDigits : Nat → List Char
  | 0 => []
  | n + 1 => decDigits ((n + 1) / 10) ++ [digitChar ((n + 1) % 10)]
decreasing_by exact Nat.div_lt_self (Nat.succ_pos n) (by decide)

/-- Decimal string of a natural number, as JS String(n) renders it. -/
def decString (n : Nat) : String := if n = 0 then "0" else ⟨decDigits n⟩

/-- Two-digit zero padding, as the dayjs format tokens DD/HH/hh/mm render
field values. -/
def pad2 (n : Nat) : String := if n < 10 then "0" ++ decString n else decString n

/-- The 12-hour clock value the dayjs hh token renders: hour % 12, with 0
mapped to 12. -/
def hour12 (h : Nat) : Nat := if h % 12 = 0 then 12 else h % 12

/-- A dayjs locale as far as the two patterns in date.js consult it: full
weekday names, full month names, and the meridiem renderer. -/
structure DayjsLocale where
  weekdays : Fin 7 → String
  months : Fin 12 → String
  meridiem : Fin 24 → String

/-- Modelled from the dayjs locale pack dayjs/locale/fr loaded by date.js:
full weekday names, Sunday first. -/
def frWeekdays (i : Fin 7) : String :=
  ["dimanche", "lundi", "mardi", "mercredi", "jeudi", "vendredi",
   "samedi"].get ⟨i.val, i.isLt⟩

/-- Modelled from dayjs/locale/fr: full month names, January first. -/
def frMonths (i : Fin 12) : String :=
  ["janvier", "février", "mars", "avril", "mai", "juin", "juillet", "août",
   "septembre", "octobre", "novembre", "décembre"].get ⟨i.val, i.isLt⟩

/-- Modelled from the built-in dayjs default (en) locale: full weekday
names, Sunday first. -/
def enWeekdays (i : Fin 7) : String :=
  ["Sunday", "Monday", "Tuesday", "Wednesday", "Thursday", "Friday",
   "Saturday"].get ⟨i.val, i.isLt⟩

/-- Modelled from the built-in dayjs default (en) locale: full month names,
January first. -/
def enMonths (i : Fin 12) : String :=
  ["January", "February", "March", "April", "May", "June", "July", "August",
   "September", "October", "November", "December"].get ⟨i.val, i.isLt⟩

/-- The dayjs default meridiem renderer for the A token: AM before noon,
PM from noon on. -/
def defaultMeridiem (h : Fin 24) : String := if h.val < 12 then "AM" else "PM"

/-- The fr locale as registered by the require of dayjs/locale/fr in
date.js line 2 (it defines no meridiem of its own, so the default applies). -/
def frLocale : DayjsLocale :=
  { weekdays := frWeekdays, months := frMonths, meridiem := defaultMeridiem }

/-- The built-in dayjs default (en) locale. -/
def enLocale : DayjsLocale :=
  { weekdays := enWeekdays, months := enMonths, meridiem := defaultMeridiem }

/-- Modelled from the dayjs locale registry as date.js configures it: only
the fr pack is loaded (date.js line 2) besides the built-in en default, and
an instance-level locale(name) call with an unknown name keeps the default
locale. -/
def resolveLocale (language : String) : DayjsLocale :=
  if language = "fr" then frLocale else enLocale

/-- The dayjs format tokens the two patterns in date.js use, plus literal
runs the tokenizer leaves unchanged. -/
inductive FmtTok
  | lit (s : String)
  | dddd
  | DD
  | MMMM
  | YYYY
  | HH
  | hh
  | mm
  | A
deriving DecidableEq

/-- Rendering of one dayjs format token against a locale and an instant:
dddd full weekday name, DD zero-padded day, MMMM full month name, YYYY
unpadded year, HH zero-padded 24-hour, hh zero-padded 12-hour, mm
zero-padded minute, A meridiem. -/
def renderTok (L : DayjsLocale) (d : DateTime) : FmtTok → String
  | .lit s => s
  | .dddd => L.weekdays d.weekday
  | .DD => pad2 d.day
  | .MMMM => L.months d.month
  | .YYYY => decString d.year
  | .HH => pad2 d.hour.val
  | .hh => pad2 (hour12 d.hour.val)
  | .mm => pad2 d.minute.val
  | .A => L.meridiem d.hour

/-- Rendering of a token list: the concatenation of the token renderings. -/
def renderFmt (L : DayjsLocale) (d : DateTime) (toks : List FmtTok) : String :=
  ⟨(toks.map fun t => (renderTok L d t).data).flatten⟩

/-- The dayjs tokenization of the constant pattern
dddd DD MMMM YYYY à HH:mm of date.js line 7 (à is no format token, so it
stays a literal). -/
def frTokens : List FmtTok :=
  [.dddd, .lit " ", .DD, .lit " ", .MMMM, .lit " ", .YYYY, .lit " à ",
   .HH, .lit ":", .mm]

/-- The dayjs tokenization of the constant pattern
dddd DD MMMM YYYY, hh:mm A of date.js line 9. -/
def defaultTokens : List FmtTok :=
  [.dddd, .lit " ", .DD, .lit " ", .MMMM, .lit " ", .YYYY, .lit ", ",
   .hh, .lit ":", .mm, .lit " ", .A]

/-- The dayjs call chain dayjs(date).locale(language).format(pattern):
render the pattern with the locale the registry resolves language to. -/
def dayjsFormat (date : DateTime) (language : String) (toks : List FmtTok) :
    String :=
  renderFmt (resolveLocale language) date toks

/-- format from date.js lines 5-10: on language === fr, format with the
fr pattern; otherwise with the default pattern; either branch passes the
language argument unchanged to the locale call. -/
def format (date : DateTime) (language : String) : String :=
  if language = "fr" then dayjsFormat date language frTokens
  else dayjsFormat date language defaultTokens

/-- The world state getDate reads: the wall-clock time in epoch
milliseconds. -/
structure World where
  time : Nat

/-- Model of Date.now(): returns the current epoch-millisecond clock value
and leaves the world unchanged. -/
def jsDateNow (w : World) : Nat × World := (w.time, w)

/-- getDate from date.js line 12: () => Date.now(). -/
def getDate (w : World) : Nat × World := jsDateNow w

/-- The environment between two sequential calls: wall-clock time advances
by some non-negative number of milliseconds. -/
def advance (w : World) (d : Nat) : World := ⟨w.time + d⟩

/-- p occurs as a contiguous sublist of l. -/
def ListSub {α : Type} (p l : List α) : Prop := ∃ x y, l = x ++ p ++ y

/-- pat occurs as a contiguous substring of s. -/
def hasSub (pat s : String) : Prop := ListSub pat.data s.data

/-- A sample instant: Saturday 2024-06-15, 13:30. -/
def sampleDate : DateTime :=
  { year := 2024, month := 5, day := 15, weekday := 6, hour := 13,
    minute := 30 }

/-! ## Helper lemmas -/

/-- Running a chain whose first entries all call next() executes them and
continues; when the next entry responds, execution stops exactly there. -/
theorem runChain_of_prefix_next (behave : Step → Behavior) :
    ∀ (pre : List Step) (m : Step) (post : List Step) (r : Response),
      (∀ s ∈ pre, behave s = .next) → behave m = .respond r →
      runChain behave (pre ++ m :: post) = (pre ++ [m], some r) := by
  intro pre
  induction pre with
  | nil =>
    intro m post r _ hm
    simp [runChain, hm]
  | cons a l ih =>
    intro m post r hpre hm
    have ha : behave a = .next := hpre a (List.mem_cons_self a l)
    have hl : ∀ s ∈ l, behave s = .next := fun s hs =>
      hpre s (List.mem_cons_of_mem a hs)
    simp [runChain, ha, ih m post r hl hm]

/-- If every entry before the last one calls next(), the whole stack
executes, whatever the last (controller) entry does. -/
theorem runChain_executes_all (behave : Step → Behavior) :
    ∀ (pre : List Step) (last : Step),
      (∀ s ∈ pre, behave s = .next) →
      (runChain behave (pre ++ [last])).1 = pre ++ [last] := by
  intro pre
  induction pre with
  | nil =>
    intro last _
    cases h : behave last <;> simp [runChain, h]
  | cons a l ih =>
    intro last hpre
    have ha : behave a = .next := hpre a (List.mem_cons_self a l)
    have hl : ∀ s ∈ l, behave s = .next := fun s hs =>
      hpre s (List.mem_cons_of_mem a hs)
    simp [runChain, ha, ih last hl]

/-! ## Claim theorems: router -/

/-- C1: on each of the four profile-mutation routes (PATCH /:id/update,
PATCH /:id/update/password, PATCH /:id/update/username,
PUT /:id/update/avatar) the handler stack is exactly the route's rate-limit
middleware, then the permission check, then the existence check, then the
controller handler; and whenever the three middlewares pass, execution
visits the whole stack in that order. -/
theorem update_routes_chain_order :
    updateProfileRoute.stack =
      [.rateLimit .updateProfile, .checkPermissions, .checkIfExists,
       .controller .update] ∧
    updatePasswordRoute.stack =
      [.rateLimit .updatePassword, .checkPermissions, .checkIfExists,
       .controller .updatePassword] ∧
    updateUsernameRoute.stack =
      [.rateLimit .updateUsername, .checkPermissions, .checkIfExists,
       .controller .updateUsername] ∧
    updateAvatarRoute.stack =
      [.rateLimit .updateAvatar, .checkPermissions, .checkIfExists,
       .controller .updateAvatar] ∧
    ∀ r ∈ [updateProfileRoute, updatePasswordRoute, updateUsernameRoute,
           updateAvatarRoute],
      ∀ behave : Step → Behavior,
        (∀ op, behave (.rateLimit op) = .next) →
        behave .checkPermissions = .next →
        behave .checkIfExists = .next →
        (runChain behave r.stack).1 = r.stack := by
  refine ⟨rfl, rfl, rfl, rfl, ?_⟩
  intro r hr behave h1 h2 h3
  fin_cases hr
  · exact runChain_executes_all behave
      [.rateLimit .updateProfile, .checkPermissions, .checkIfExists]
      (.controller .update)
      (by intro s hs; fin_cases hs; exacts [h1 _, h2, h3])
  · exact runChain_executes_all behave
      [.rateLimit .updatePassword, .checkPermissions, .checkIfExists]
      (.controller .updatePassword)
      (by intro s hs; fin_cases hs; exacts [h1 _, h2, h3])
  · exact runChain_executes_all behave
      [.rateLimit .updateUsername, .checkPermissions, .checkIfExists]
      (.controller .updateUsername)
      (by intro s hs; fin_cases hs; exacts [h1 _, h2, h3])
  · exact runChain_executes_all behave
      [.rateLimit .updateAvatar, .checkPermissions, .checkIfExists]
      (.controller .updateAvatar)
      (by intro s hs; fin_cases hs; exacts [h1 _, h2, h3])

/-- C1 witness: on the profile-update route, with every middleware passing,
execution visits the whole stack. -/
theorem update_routes_chain_order_witness :
    (runChain allNext updateProfileRoute.stack).1 = updateProfileRoute.stack :=
  update_routes_chain_order.2.2.2.2 updateProfileRoute (by simp)
    allNext (fun _ => rfl) rfl rfl

/-- C5: the delete route stack is exactly permission check, existence check,
controller — no rate-limit middleware — and within the router, a route
whose stack holds a rate-limit middleware is one of the four update
routes. -/
theorem delete_route_no_rate_limit :
    deleteUserRoute.stack =
      [.checkPermissions, .checkIfExists, .controller .deleteUser] ∧
    ∀ r ∈ userRouter, r.stack.any isRateLimitStep = true →
      r ∈ [updateProfileRoute, updatePasswordRoute, updateUsernameRoute,
           updateAvatarRoute] := by
  refine ⟨rfl, ?_⟩
  decide

/-- C5 witness: the avatar-update route does carry a rate-limit middleware
and is one of the four update routes. -/
theorem delete_route_no_rate_limit_witness :
    updateAvatarRoute ∈ [updateProfileRoute, updatePasswordRoute,
      updateUsernameRoute, updateAvatarRoute] :=
  delete_route_no_rate_limit.2 updateAvatarRoute (by decide) (by decide)

/-- C6: the GET /:id route stack is exactly the existence check followed by
the controller — no permission check, no rate limit — and whenever the
existence check passes, execution reaches the controller: the whole stack
executes. -/
theorem get_user_route_chain :
    getUserRoute.stack = [.checkIfExists, .controller .getInformations] ∧
    ∀ behave : Step → Behavior, behave .checkIfExists = .next →
      (runChain behave getUserRoute.stack).1 = getUserRoute.stack := by
  refine ⟨rfl, ?_⟩
  intro behave h
  exact runChain_executes_all behave [.checkIfExists]
    (.controller .getInformations)
    (by intro s hs; fin_cases hs; exact h)

/-- C6 witness: with a passing existence check, the GET /:id stack executes
to its controller. -/
theorem get_user_route_chain_witness :
    (runChain allNext getUserRoute.stack).1 = getUserRoute.stack :=
  get_user_route_chain.2 allNext rfl

/-- C7: on any route of the router, if an entry of the stack rejects with a
response while every entry before it passed, then execution is exactly the
passing entries followed by the rejecting one — no later middleware and no
controller runs — and the response sent is the rejecting entry's. -/
theorem middleware_short_circuit :
    ∀ r ∈ userRouter,
      ∀ (behave : Step → Behavior) (pre : List Step) (m : Step)
        (post : List Step) (e : Response),
        r.stack = pre ++ m :: post →
        (∀ s ∈ pre, behave s = .next) →
        behave m = .respond e →
        runChain behave r.stack = (pre ++ [m], some e) := by
  intro r _ behave pre m post e hstack hpre hm
  rw [hstack]
  exact runChain_of_prefix_next behave pre m post e hpre hm

/-- C7 witness: on the password-update route, a caller rejected by the
permission check gets the 403 response and neither the existence check nor
the controller runs. -/
theorem middleware_short_circuit_witness :
    runChain rejectPermissions updatePasswordRoute.stack =
      ([.rateLimit .updatePassword, .checkPermissions],
       some ⟨403, "Forbidden"⟩) :=
  middleware_short_circuit updatePasswordRoute (by simp [userRouter])
    rejectPermissions [.rateLimit .updatePassword] .checkPermissions
    [.checkIfExists, .controller .updatePassword] ⟨403, "Forbidden"⟩
    rfl (by intro s hs; fin_cases hs; rfl) rfl

/-- C10: a GET request for path /search dispatches to the search route,
whose stack is the bare controller (no middleware); it does not match the
user-detail route even though that route is registered first. -/
theorem search_route_direct_dispatch :
    dispatch .get ["search"] = some searchRoute ∧
    searchRoute.stack = [.controller .searchUserByName] ∧
    matchRoute .get ["search"] getUserRoute = false ∧
    userRouter.head? = some getUserRoute := by
  refine ⟨by decide, rfl, by decide, rfl⟩

/-- C3 (amended): a GET request for a one-segment path matches the
user-detail route exactly when the segment is a non-empty digit run; a
segment with a non-digit character never matches the detail route, and
then, unless the segment is the literal search (case-insensitively), the
request matches no route at all and falls through to 404. -/
theorem numeric_detail_route_matching :
    (∀ n : String, matchRoute .get [n] getUserRoute = isNumericSeg n) ∧
    (∀ n : String, n.data.any (fun c => !c.isDigit) = true →
       matchRoute .get [n] getUserRoute = false ∧
       (lowerStr n ≠ "search" → dispatch .get [n] = none)) := by
  constructor
  · intro n
    simp [matchRoute, getUserRoute, matchPattern, matchSeg]
  · intro n hn
    obtain ⟨c, hc, hcd⟩ := List.any_eq_true.mp hn
    have hall : n.data.all Char.isDigit = false :=
      List.all_eq_false.mpr ⟨c, hc, by simpa using hcd⟩
    have hnum : isNumericSeg n = false := by simp [isNumericSeg, hall]
    constructor
    · simp [matchRoute, getUserRoute, matchPattern, matchSeg, hnum]
    · intro hne
      have hsearch : (lowerStr "search" == lowerStr n) = false := by
        rw [beq_eq_false_iff_ne]
        intro h
        exact hne (h.symm.trans (by decide))
      simp [dispatch, userRouter, List.find?, matchRoute, matchPattern,
        matchSeg, hnum, hsearch, getUserRoute, searchRoute,
        updateProfileRoute, updatePasswordRoute, updateUsernameRoute,
        updateAvatarRoute, deleteUserRoute, followRoute, unfollowRoute]

/-- C3 witness: the segment abc contains a non-digit, does not match the
detail route, and the request falls through to 404. -/
theorem numeric_detail_route_matching_witness :
    matchRoute .get ["abc"] getUserRoute = false ∧
    dispatch .get ["abc"] = none := by
  have h := numeric_detail_route_matching.2 "abc" (by decide)
  exact ⟨h.1, h.2 (by decide)⟩

/-- C3 counterexample: the segment search contains a non-digit character,
yet a GET request for it does not fall through to a 404: it dispatches to
the search route. -/
theorem numeric_detail_route_cex :
    "search".data.any (fun c => !c.isDigit) = true ∧
    dispatch .get ["search"] ≠ none := by
  exact ⟨by decide, by decide⟩

/-- C4: a request of the shape of the follow route (POST /a/follow/b)
matches it exactly when both parameter segments are non-empty digit runs,
and likewise for the unfollow route (DELETE /a/unfollow/b). -/
theorem follow_unfollow_numeric_segments :
    (∀ a b : String, matchRoute .post [a, "follow", b] followRoute =
        (isNumericSeg a && isNumericSeg b)) ∧
    (∀ a b : String, matchRoute .delete [a, "unfollow", b] unfollowRoute =
        (isNumericSeg a && isNumericSeg b)) := by
  constructor <;> intro a b <;>
    simp [matchRoute, followRoute, unfollowRoute, matchPattern, matchSeg]

/-! ## Helper lemmas: substrings and digit strings -/

/-- A list occurs in itself. -/
theorem listSub_self {α : Type} (p : List α) : ListSub p p :=
  ⟨[], [], by simp⟩

/-- Occurrence survives appending on the right. -/
theorem listSub_append_left {α : Type} {p l : List α} (m : List α) :
    ListSub p l → ListSub p (l ++ m) := by
  rintro ⟨x, y, rfl⟩
  exact ⟨x, y ++ m, by simp⟩

/-- Occurrence survives appending on the left. -/
theorem listSub_append_right {α : Type} {p l : List α} (m : List α) :
    ListSub p l → ListSub p (m ++ l) := by
  rintro ⟨x, y, rfl⟩
  exact ⟨m ++ x, y, by simp⟩

/-- Occurrence is transitive. -/
theorem listSub_trans {α : Type} {p q l : List α} :
    ListSub p q → ListSub q l → ListSub p l := by
  rintro ⟨x, y, rfl⟩ ⟨u, v, rfl⟩
  exact ⟨u ++ x, y ++ v, by simp⟩

/-- Every member of a list of lists occurs in the flattening. -/
theorem listSub_of_mem_flatten {α : Type} {l : List α} {L : List (List α)} :
    l ∈ L → ListSub l L.flatten := by
  intro hl
  induction L with
  | nil => simp at hl
  | cons a t ih =>
    rw [List.flatten_cons]
    rcases List.mem_cons.mp hl with rfl | h
    · exact listSub_append_left _ (listSub_self _)
    · exact listSub_append_right _ (ih h)

/-- A pattern holding an element absent from the list does not occur. -/
theorem not_listSub {α : Type} {p l : List α} (c : α) (hc : c ∈ p)
    (h : c ∉ l) : ¬ ListSub p l := by
  rintro ⟨x, y, rfl⟩
  exact h (by simp [hc])

/-- The character list of a rendering is the flattening of the token
character lists. -/
theorem renderFmt_data (L : DayjsLocale) (d : DateTime) (toks : List FmtTok) :
    (renderFmt L d toks).data =
      (toks.map fun t => (renderTok L d t).data).flatten := rfl

/-- Characters of a rendering come from token renderings. -/
theorem mem_data_renderFmt {L : DayjsLocale} {d : DateTime}
    {toks : List FmtTok} {c : Char} :
    c ∈ (renderFmt L d toks).data ↔
      ∃ t ∈ toks, c ∈ (renderTok L d t).data := by
  rw [renderFmt_data]
  simp [List.mem_flatten]

/-- If the pattern occurs inside the rendering of a token of the list, it
occurs in the whole rendering. -/
theorem hasSub_of_tok {L : DayjsLocale} {d : DateTime} {toks : List FmtTok}
    {t : FmtTok} {pat : String} (ht : t ∈ toks)
    (h : ListSub pat.data (renderTok L d t).data) :
    hasSub pat (renderFmt L d toks) := by
  unfold hasSub
  rw [renderFmt_data]
  exact listSub_trans h
    (listSub_of_mem_flatten (List.mem_map_of_mem _ ht))

/-- digitChar of a value below ten is a decimal digit. -/
theorem digitChar_isDigit {k : Nat} (hk : k < 10) :
    (digitChar k).isDigit = true := by
  interval_cases k <;> decide

/-- Every character of decDigits is a decimal digit. -/
theorem decDigits_isDigit : ∀ n, ∀ c ∈ decDigits n, c.isDigit = true := by
  intro n
  induction n using Nat.strong_induction_on with
  | _ n ih =>
    cases n with
    | zero => intro c hc; simp [decDigits] at hc
    | succ m =>
      intro c hc
      rw [decDigits] at hc
      rcases List.mem_append.mp hc with h | h
      · exact ih ((m + 1) / 10)
          (Nat.div_lt_self (Nat.succ_pos m) (by decide)) c h
      · rcases List.mem_singleton.mp h with rfl
        exact digitChar_isDigit (Nat.mod_lt _ (by decide))

/-- Every character of a decimal string is a decimal digit. -/
theorem decString_isDigit {n : Nat} {c : Char}
    (hc : c ∈ (decString n).data) : c.isDigit = true := by
  unfold decString at hc
  split at hc
  · rcases List.mem_singleton.mp hc with rfl; decide
  · exact decDigits_isDigit n c hc

/-- Every character of a two-digit padded value is a decimal digit. -/
theorem pad2_isDigit {n : Nat} {c : Char}
    (hc : c ∈ (pad2 n).data) : c.isDigit = true := by
  unfold pad2 at hc
  split at hc
  · rw [String.data_append] at hc
    rcases List.mem_append.mp hc with h | h
    · rcases List.mem_singleton.mp h with rfl; decide
    · exact decString_isDigit h
  · exact decString_isDigit hc

/-- The fr-pattern rendering never holds an uppercase M, whatever the
instant: its literals, digit fields and fr names are all M-free. -/
theorem fr_render_no_M (d : DateTime) :
    ('M') ∉ (renderFmt frLocale d frTokens).data := by
  intro h
  rw [mem_data_renderFmt] at h
  obtain ⟨t, ht, hc⟩ := h
  have h7 : ∀ i : Fin 7, ('M') ∉ (frWeekdays i).data := by decide
  have h12 : ∀ i : Fin 12, ('M') ∉ (frMonths i).data := by decide
  fin_cases ht
  · exact h7 d.weekday hc
  · exact absurd (show ('M') ∈ (" ").data from hc) (by decide)
  · exact absurd (pad2_isDigit hc) (by decide)
  · exact absurd (show ('M') ∈ (" ").data from hc) (by decide)
  · exact h12 d.month hc
  · exact absurd (show ('M') ∈ (" ").data from hc) (by decide)
  · exact absurd (decString_isDigit hc) (by decide)
  · exact absurd (show ('M') ∈ (" à ").data from hc) (by decide)
  · exact absurd (pad2_isDigit hc) (by decide)
  · exact absurd (show ('M') ∈ (":").data from hc) (by decide)
  · exact absurd (pad2_isDigit hc) (by decide)

/-- The default-pattern rendering never holds the character à, whatever the
instant: its literals, digit fields, en names and meridiem are à-free. -/
theorem default_render_no_agrave (d : DateTime) :
    ('à') ∉ (renderFmt enLocale d defaultTokens).data := by
  intro h
  rw [mem_data_renderFmt] at h
  obtain ⟨t, ht, hc⟩ := h
  have h7 : ∀ i : Fin 7, ('à') ∉ (enWeekdays i).data := by decide
  have h12 : ∀ i : Fin 12, ('à') ∉ (enMonths i).data := by decide
  have hmer : ∀ i : Fin 24, ('à') ∉ (defaultMeridiem i).data := by decide
  fin_cases ht
  · exact h7 d.weekday hc
  · exact absurd (show ('à') ∈ (" ").data from hc) (by decide)
  · exact absurd (pad2_isDigit hc) (by decide)
  · exact absurd (show ('à') ∈ (" ").data from hc) (by decide)
  · exact h12 d.month hc
  · exact absurd (show ('à') ∈ (" ").data from hc) (by decide)
  · exact absurd (decString_isDigit hc) (by decide)
  · exact absurd (show ('à') ∈ (", ").data from hc) (by decide)
  · exact absurd (pad2_isDigit hc) (by decide)
  · exact absurd (show ('à') ∈ (":").data from hc) (by decide)
  · exact absurd (pad2_isDigit hc) (by decide)
  · exact absurd (show ('à') ∈ (" ").data from hc) (by decide)
  · exact hmer d.hour hc

/-! ## Claim theorems: date utility -/

/-- C2: for every instant, formatting with language fr renders the fr
pattern (24-hour, with the literal à and no AM/PM marker), and formatting
with any other language renders the default pattern (12-hour, with an
AM or PM marker and no à). -/
theorem format_fr_default_patterns :
    ∀ d : DateTime,
      (format d "fr" = renderFmt frLocale d frTokens ∧
       hasSub "à" (format d "fr") ∧
       ¬ hasSub "AM" (format d "fr") ∧
       ¬ hasSub "PM" (format d "fr")) ∧
      (∀ language : String, language ≠ "fr" →
        format d language = renderFmt enLocale d defaultTokens ∧
        (hasSub "AM" (format d language) ∨
         hasSub "PM" (format d language)) ∧
        ¬ hasSub "à" (format d language)) := by
  intro d
  have hfr : format d "fr" = renderFmt frLocale d frTokens := by
    simp [format, dayjsFormat, resolveLocale]
  constructor
  · refine ⟨hfr, ?_, ?_, ?_⟩
    · rw [hfr]
      exact hasSub_of_tok (t := .lit " à ") (by decide)
        (show ListSub ("à").data (" à ").data from ⟨[' '], [' '], by decide⟩)
    · rw [hfr]
      exact not_listSub ('M') (by decide) (fr_render_no_M d)
    · rw [hfr]
      exact not_listSub ('M') (by decide) (fr_render_no_M d)
  · intro language hl
    have hen : format d language = renderFmt enLocale d defaultTokens := by
      simp [format, dayjsFormat, resolveLocale, hl]
    refine ⟨hen, ?_, ?_⟩
    · rw [hen]
      by_cases hh : d.hour.val < 12
      · left
        refine hasSub_of_tok (t := .A) (by decide) ?_
        have hA : renderTok enLocale d .A = "AM" := by
          simp [renderTok, enLocale, defaultMeridiem, hh]
        rw [hA]
        exact listSub_self _
      · right
        refine hasSub_of_tok (t := .A) (by decide) ?_
        have hA : renderTok enLocale d .A = "PM" := by
          simp [renderTok, enLocale, defaultMeridiem, hh]
        rw [hA]
        exact listSub_self _
    · rw [hen]
      exact not_listSub ('à') (by decide) (default_render_no_agrave d)

/-- C2 witness: at the sample instant, the fr rendering holds à, and the
en rendering holds an AM or PM marker and no à. -/
theorem format_fr_default_patterns_witness :
    hasSub "à" (format sampleDate "fr") ∧
    (hasSub "AM" (format sampleDate "en") ∨
     hasSub "PM" (format sampleDate "en")) ∧
    ¬ hasSub "à" (format sampleDate "en") :=
  ⟨((format_fr_default_patterns sampleDate).1).2.1,
   ((format_fr_default_patterns sampleDate).2 "en" (by decide)).2.1,
   ((format_fr_default_patterns sampleDate).2 "en" (by decide)).2.2⟩

/-- C9: the branch test of format is exact string equality with fr: any
other language value goes to the default 12-hour branch, the language
string itself passed unchanged into the dayjs locale call. -/
theorem format_branch_exact_fr :
    ∀ (d : DateTime) (language : String), language ≠ "fr" →
      format d language = dayjsFormat d language defaultTokens := by
  intro d language h
  simp [format, h]

/-- C9 witness: FR, Fr and fr-FR all take the default branch. -/
theorem format_branch_exact_fr_witness :
    format sampleDate "FR" = dayjsFormat sampleDate "FR" defaultTokens ∧
    format sampleDate "Fr" = dayjsFormat sampleDate "Fr" defaultTokens ∧
    format sampleDate "fr-FR" =
      dayjsFormat sampleDate "fr-FR" defaultTokens :=
  ⟨format_branch_exact_fr sampleDate "FR" (by decide),
   format_branch_exact_fr sampleDate "Fr" (by decide),
   format_branch_exact_fr sampleDate "fr-FR" (by decide)⟩

/-- C8: getDate returns the current epoch-millisecond clock reading, leaves
the world unchanged, and across any forward movement of the wall clock a
second sequential call returns a value at least the first. -/
theorem getDate_current_pure_monotone :
    ∀ (w : World) (d : Nat),
      (getDate w).1 = w.time ∧
      (getDate w).2 = w ∧
      (getDate w).1 ≤ (getDate (advance (getDate w).2 d)).1 :=
  fun w d => ⟨rfl, rfl, Nat.le_add_right w.time d⟩
